import Mathlib

/-!
Verification of the Alara Resurgent design-bible parsing and classification
engine.  The repository contains three near-duplicate generators; the unique
logic is:

* a line classifier `isRuleLine` (src/unnamed/part_000 lines 17-44,
  src/unnamed/part_001 lines 16-36 — identical),
* a sectioned document parser with a backward rules/flavor scan
  (src/unnamed/part_001, `parseDesignBible` / `finalizeCard`),
* a second, older parser variant with a forward per-line flavor heuristic
  (src/generate_alara.mjs, `parseDesignBible`),
* the identity derivers `getColorIdentity` / `getShardIdentity`
  (src/generate_alara.mjs lines 47-125).

Lines of text are modelled as `List Char`; JavaScript string primitives
(`trim`, `includes`, `startsWith`, `endsWith`, `toLowerCase`, `toUpperCase`)
and the two regular expressions used by the parsers are embedded explicitly.
Case mapping is ASCII (the vocabulary and all header constants are ASCII,
and `Char.toLower`/`Char.toUpper` agree with JavaScript there).
-/

namespace Alara

/-- A single line of text, as a list of characters (a JavaScript string). -/
abbrev Line := List Char

/-- Left brace character, written by code point. -/
def lbrace : Char := '\x7b'

/-- Right brace character, written by code point. -/
def rbrace : Char := '\x7d'

/-- Typographic left double quotation mark U+201C, as in part_001 line 125. -/
def ldquo : Char := '“'

/-- Em dash U+2014, as in the source regexes of part_001 lines 18-19. -/
def emDash : Char := '—'

/-- The character class matched by the JavaScript regex escape `\s`
    (also the set removed by `String.prototype.trim`). -/
def jsWS (c : Char) : Bool :=
  c = ' ' || c = '\t' || c = '\n' || c = '\x0b' || c = '\x0c' || c = '\r' ||
  c = ' ' || c = ' ' || (0x2000 ≤ c.toNat && c.toNat ≤ 0x200A) ||
  c = ' ' || c = ' ' || c = ' ' || c = ' ' ||
  c = '　' || c = '﻿'

/-- Characters matched by the JavaScript regex `.` (anything but a line
    terminator). -/
def isDot (c : Char) : Bool :=
  !(c = '\n' || c = '\r' || c = ' ' || c = ' ')

/-- JavaScript `String.prototype.trim`. -/
def jsTrim (l : Line) : Line :=
  ((l.dropWhile jsWS).reverse.dropWhile jsWS).reverse

/-- JavaScript `haystack.includes(needle)`: substring containment. -/
def containsStr (needle : Line) : Line → Bool
  | [] => needle.isEmpty
  | c :: rest => needle.isPrefixOf (c :: rest) || containsStr needle rest

/-- JavaScript `line.toLowerCase()` (ASCII case mapping). -/
def lowerLine (l : Line) : Line := l.map Char.toLower

/-- JavaScript `line.toUpperCase()` (ASCII case mapping). -/
def upperLine (l : Line) : Line := l.map Char.toUpper

/-- JavaScript `Array.prototype.join(" ")`. -/
def joinSpace : List Line → Line
  | [] => []
  | [l] => l
  | l :: ls => l ++ ' ' :: joinSpace ls

/-- Test for the regex `/^[A-Z][a-z]+ —/` of part_001 line 18: a capital
    letter, one or more lowercase letters, a space and an em dash (the
    greedy `[a-z]+` run is followed by a non-lowercase character, so the
    maximal run is the only candidate). -/
def abilityWordTest (l : Line) : Bool :=
  match l with
  | [] => false
  | c :: rest =>
    c.isUpper &&
    !(rest.takeWhile Char.isLower).isEmpty &&
    (match rest.dropWhile Char.isLower with
     | ' ' :: d :: _ => d = emDash
     | _ => false)

/-- Test for the regex `/^[A-Z][a-z]+\s\d+$/` of part_001 line 19: a capital
    letter, one or more lowercase letters, a single whitespace character and
    trailing digits up to the end of the line. -/
def keywordNumTest (l : Line) : Bool :=
  match l with
  | [] => false
  | c :: rest =>
    c.isUpper &&
    !(rest.takeWhile Char.isLower).isEmpty &&
    (match rest.dropWhile Char.isLower with
     | s :: ds => jsWS s && !ds.isEmpty && ds.all Char.isDigit
     | [] => false)

/-- The fixed vocabulary of mechanical terms of part_001 lines 21-32. -/
def mechanicsVocab : List Line :=
  ["target".data, "battlefield".data, "graveyard".data, "library".data,
   "exile".data, "damage".data, "life".data, "counter".data, "token".data,
   "create".data, "sacrifice".data, "destroy".data, "draw".data,
   "discard".data, "tap".data, "untap".data, "equip".data, "attach".data,
   "cast".data, "activate".data, "enter".data, "leaves".data, "die".data,
   "regenerate".data, "fight".data, "scry".data, "mill".data, "look".data,
   "reveal".data, "shuffle".data, "flying".data, "haste".data,
   "trample".data, "vigilance".data, "first strike".data,
   "double strike".data, "deathtouch".data, "reach".data, "lifelink".data,
   "hexproof".data, "ward".data, "protection".data, "flash".data,
   "defender".data, "+1/+1".data, "-1/-1".data, "fabricate".data,
   "cascade".data, "exalted".data, "affinity".data, "replicate".data,
   "storm".data, "cycling".data, "fear".data, "intimidate".data,
   "landwalk".data, "shroud".data]

/-- The content classifier of part_001 lines 16-36 (identical in
    part_000 lines 17-44): brace symbols, the two anchored patterns, then a
    case-insensitive substring scan over the vocabulary. -/
def isRuleLine (l : Line) : Bool :=
  if l.contains lbrace || l.contains rbrace then true
  else if abilityWordTest l then true
  else if keywordNumTest l then true
  else mechanicsVocab.any (fun t => containsStr t (lowerLine l))

/-! ### The card-start regexes

`idTagRegex = /^\[([A-Z0-9]+)\]\s+(.+?)(?:\s+(\{.*\})\s*)?$/` (part_001
line 105), applied to a line that is already trimmed, and the degraded
fallback `/^\[[A-Z]+\d+\]/` (part_001 line 159).  The backtracking engine is
modelled explicitly: the greedy `\s+` prefers the maximal whitespace run,
the lazy `(.+?)` prefers the shortest name, and for each split the optional
cost group is preferred over ending the match.  Because the line is trimmed,
`\s*$` forces the cost group, when present, to end exactly at the closing
brace that ends the line. -/

/-- Characters matched by the class `[A-Z0-9]` of the tag group. -/
def tagChar (c : Char) : Bool := c.isUpper || c.isDigit

/-- Successful match of `(?:\s+(\{.*\})\s*)?$` against a candidate
    remainder of a trimmed line: one or more whitespace characters, then a
    brace-delimited block of dot-characters reaching the end of the line. -/
def costTest (s : Line) : Option Line :=
  let w := s.takeWhile jsWS
  let t := s.dropWhile jsWS
  if w.isEmpty then none
  else
    match t with
    | c :: rest =>
      if c = lbrace && !rest.isEmpty && rest.getLast? = some rbrace
          && (rest.dropLast).all isDot then
        some t
      else none
    | [] => none

/-- The lazy search of `(.+?)` over the part of the line after `]\s+`: the
    shortest non-empty name prefix of dot-characters after which the cost
    group (tried first) or the end of the line matches. -/
def nameCost : Line → Option (Line × Option Line)
  | [] => none
  | c :: rest =>
    if !(isDot c) then none
    else
      match costTest rest with
      | some t => some ([c], some t)
      | none =>
        match rest with
        | [] => some ([c], none)
        | _ :: _ =>
          match nameCost rest with
          | some (n, co) => some (c :: n, co)
          | none => none

/-- First success of `f` along a list of candidates. -/
def firstSome (f : α → Option β) : List α → Option β
  | [] => none
  | a :: rest =>
    match f a with
    | some b => some b
    | none => firstSome f rest

/-- Backtracking of the greedy `\s+` separating the tag from the name: the
    engine first gives all of the whitespace run `w` to `\s+`, then moves
    its trailing characters one by one onto the front of the name part
    (keeping at least one whitespace character in `\s+`). -/
def wsCandidates (w s : Line) : List Line :=
  (List.range w.length).map (fun i => w.drop (w.length - i) ++ s)

/-- A match of `idTagRegex` against a cleaned line, yielding the three
    capture groups (the cost group is optional). -/
structure IdMatch where
  id : Line
  name : Line
  cost : Option Line
  deriving DecidableEq

/-- JavaScript `cleanLine.match(idTagRegex)` on a trimmed line. -/
def idTagMatch (l : Line) : Option IdMatch :=
  match l with
  | '[' :: rest =>
    let tag := rest.takeWhile tagChar
    (match rest.dropWhile tagChar with
     | ']' :: rest2 =>
       if tag.isEmpty then none
       else
         let w := rest2.takeWhile jsWS
         let s := rest2.dropWhile jsWS
         (firstSome nameCost (wsCandidates w s)).map
           (fun p => ⟨tag, p.1, p.2⟩)
     | _ => none)
  | _ => none

/-- JavaScript `cleanLine.match(/^\[[A-Z]+\d+\]/)` viewed as a test: an
    opening bracket, a maximal run of capitals, a maximal run of digits,
    then a closing bracket (the character classes are disjoint, so the
    greedy runs are the only candidates). -/
def fallbackTag (l : Line) : Bool :=
  match l with
  | '[' :: rest =>
    !(rest.takeWhile Char.isUpper).isEmpty &&
    (match (rest.dropWhile Char.isUpper).dropWhile Char.isDigit with
     | ']' :: _ => !((rest.dropWhile Char.isUpper).takeWhile Char.isDigit).isEmpty
     | _ => false)
  | _ => false

/-! ### Line normalization and line splitting (shared by both parsers) -/

/-- JavaScript `line.replace(/^\\s*/, '')` (part_001 line 104): the pattern
    matches a literal backslash followed by a run of the letter `s`, so the
    replacement strips exactly that prefix when present. -/
def stripSourceTag : Line → Line
  | '\\' :: rest => rest.dropWhile (fun c => c = 's')
  | l => l

/-- The cleaned form of a raw line: `line.replace(sourceTagRegex, '').trim()`. -/
def cleanse (l : Line) : Line := jsTrim (stripSourceTag l)

/-- JavaScript `content.split(/\r?\n/)`: split on newlines, swallowing a
    carriage return that immediately precedes a newline. -/
def splitLines : Line → List Line
  | [] => [[]]
  | '\r' :: '\n' :: rest => [] :: splitLines rest
  | '\n' :: rest => [] :: splitLines rest
  | c :: rest =>
    match splitLines rest with
    | l :: ls => (c :: l) :: ls
    | [] => [[c]]

/-! ### The gallery generator's card model and parser (src/unnamed/part_001) -/

/-- The `Card` class of part_001 lines 42-50 (presentation helpers are out
    of scope): `text` holds the rules lines, `flavor` the flavor lines. -/
structure Card where
  id : Line
  name : Line
  cost : Line
  type : Line
  text : List Line
  flavor : List Line
  deriving DecidableEq

/-- Test of part_001 line 125: the line starts with a typographic left
    double quote or a straight double quote. -/
def startsFlavorQuote (l : Line) : Bool :=
  match l with
  | c :: _ => c = ldquo || c = '"'
  | [] => false

/-- One step of the backward scan of part_001 lines 123-137, acting on the
    state (still-in-flavor flag, rules stack, flavor stack).  A quoted line
    is prepended to the flavor stack without touching the flag; otherwise a
    rules line latches the flag to false, and the line goes to the flavor
    stack when the flag is still true, else to the rules stack. -/
def classifyStep (l : Line) (acc : Bool × List Line × List Line) :
    Bool × List Line × List Line :=
  if startsFlavorQuote l then (acc.1, acc.2.1, l :: acc.2.2)
  else
    let flag2 := if isRuleLine l then false else acc.1
    if flag2 then (flag2, acc.2.1, l :: acc.2.2)
    else (flag2, l :: acc.2.1, acc.2.2)

/-- The whole backward (bottom-to-top) scan over the body lines after the
    type line; the right fold processes the last line first, exactly like
    the source's descending loop with `unshift`. -/
def classifyBody (ls : List Line) : Bool × List Line × List Line :=
  ls.foldr classifyStep (true, [], [])

/-- The `finalizeCard` closure of part_001 lines 107-142.  The id line is
    already resolved to (id, name, cost): for a structured match these are
    the capture groups with an absent cost defaulted to the empty string,
    for a degraded match they are `"UNKNOWN"`, the raw cleaned line and the
    empty string, mirroring `[null, "UNKNOWN", cleanLine, ""]`. -/
def finalizeCard (idl : Line × Line × Line) (bodyLines : List Line) : Card :=
  match bodyLines.filter (fun l => !(jsTrim l).isEmpty) with
  | [] => ⟨idl.1, idl.2.1, idl.2.2, [], [], []⟩
  | ty :: remaining =>
    ⟨idl.1, idl.2.1, idl.2.2, ty,
     (classifyBody remaining).2.1, (classifyBody remaining).2.2⟩

/-- The section mode of part_001 line 102 (`"INTRO"` is the initial mode). -/
inductive Mode
  | INTRO
  | FLAVOR
  | MECHANICS
  | CARDS
  deriving DecidableEq

/-- The mutable state of the scan of part_001 lines 94-102. -/
structure ParseState where
  cards : List Card
  infoFlavor : List Line
  infoMechanics : List Line
  currentIdLine : Option (Line × Line × Line)
  currentBuffer : List Line
  parsingSection : Mode
  deriving DecidableEq

/-- The state before any line is processed. -/
def initState : ParseState := ⟨[], [], [], none, [], Mode.INTRO⟩

/-- Substring that switches the parser into the flavor section. -/
def hdrFlavor : Line := "1. FLAVOR & WORLD".data

/-- Substring that switches the parser into the mechanics section. -/
def hdrMechanics : Line := "2. MECHANICAL IDENTITIES".data

/-- Substring that switches the parser into the cards section. -/
def hdrCards : Line := "3. CARD FILE".data

/-- Finalize and append the currently open card, if any (part_001 lines
    160-162 and 177-179). -/
def pushCurrent (st : ParseState) : List Card :=
  match st.currentIdLine with
  | some idl => st.cards ++ [finalizeCard idl st.currentBuffer]
  | none => st.cards

/-- Processing of one raw line by the `lines.forEach` body of part_001
    lines 144-175: clean the line, skip it when blank, switch the section
    when it contains a header substring, and otherwise dispatch on the
    current section; in the cards section a card-start line (structured or
    degraded) finalizes the open card and opens a new one, any other line
    is buffered when a card is open. -/
def step001 (st : ParseState) (raw : Line) : ParseState :=
  let cl := cleanse raw
  if cl.isEmpty then st
  else if containsStr hdrFlavor cl then { st with parsingSection := Mode.FLAVOR }
  else if containsStr hdrMechanics cl then { st with parsingSection := Mode.MECHANICS }
  else if containsStr hdrCards cl then { st with parsingSection := Mode.CARDS }
  else
    match st.parsingSection with
    | Mode.INTRO => st
    | Mode.FLAVOR => { st with infoFlavor := st.infoFlavor ++ [cl] }
    | Mode.MECHANICS => { st with infoMechanics := st.infoMechanics ++ [cl] }
    | Mode.CARDS =>
      match idTagMatch cl with
      | some m =>
        { st with
          cards := pushCurrent st
          currentIdLine := some (m.id, m.name, m.cost.getD [])
          currentBuffer := [] }
      | none =>
        if fallbackTag cl then
          { st with
            cards := pushCurrent st
            currentIdLine := some ("UNKNOWN".data, cl, [])
            currentBuffer := [] }
        else
          match st.currentIdLine with
          | some _ => { st with currentBuffer := st.currentBuffer ++ [cl] }
          | none => st

/-- The result of `parseDesignBible` of part_001: the card list plus the
    two auxiliary buckets of `setInfo`. -/
structure ParseResult where
  cards : List Card
  infoFlavor : List Line
  infoMechanics : List Line
  deriving DecidableEq

/-- The `parseDesignBible` function of part_001 lines 90-182 (the file read
    is resolved by the caller; the document content is the input). -/
def parseDesignBible (content : Line) : ParseResult :=
  let st := (splitLines content).foldl step001 initState
  ⟨pushCurrent st, st.infoFlavor, st.infoMechanics⟩

/-- The `main` function of part_001 lines 378-391, up to its only hard
    failure: a missing input document aborts before parsing, any present
    document is parsed unconditionally. -/
def runMain (doc : Option Line) : Except Line ParseResult :=
  match doc with
  | none => Except.error "Error: alara_design_bible.txt not found.".data
  | some content => Except.ok (parseDesignBible content)

/-! ### The art generator (src/generate_alara.mjs)

This older variant of the generator keeps flavor as a single string, has no
section tracking, and classifies each body line on the spot with a forward
heuristic.  Its source file is stored with mojibake: the quote check of
line 188 compares against the three characters `U+00E2 U+20AC U+0153` (the
UTF-8 bytes of a left double quote decoded as Latin-1), not against the
quote character itself. -/

namespace ArtGen

/-- The `Card` class of generate_alara.mjs lines 23-31: `text` is the rules
    line list, `flavor` a single accumulated string. -/
structure Card where
  id : Line
  name : Line
  cost : Line
  type : Line
  text : List Line
  flavor : Line
  deriving DecidableEq

/-- The string literal compared by `cleanLine.startsWith("â€œ")` of
    generate_alara.mjs line 188 (three mojibake characters). -/
def mojibakeQuote : Line := ['â', '€', 'œ']

/-- The flavor test of generate_alara.mjs line 188: the line starts with
    the mojibake quote sequence, or ends with a period while containing
    neither a colon nor an opening brace. -/
def isFlavorHeuristic (l : Line) : Bool :=
  mojibakeQuote.isPrefixOf l ||
  (l.getLast? = some '.' && !(l.contains ':') && !(l.contains lbrace))

/-- One body line of generate_alara.mjs lines 188-192, acting on the
    accumulated (rules list, flavor string) pair once the type line is set:
    a flavor line is appended to the flavor string after a space, any other
    line is appended to the rules list. -/
def mjsBodyStep (acc : List Line × Line) (l : Line) : List Line × Line :=
  if isFlavorHeuristic l then (acc.1, acc.2 ++ ' ' :: l)
  else (acc.1 ++ [l], acc.2)

/-- The whole body-line dispatch of generate_alara.mjs once the type line
    is set, folded over the body lines in order. -/
def bodySplit (ls : List Line) : List Line × Line :=
  ls.foldl mjsBodyStep ([], [])

/-- The mutable state of the scan of generate_alara.mjs lines 159-160. -/
structure ParseStateM where
  cards : List Card
  current : Option Card
  deriving DecidableEq

/-- Append the currently open card, if any. -/
def pushCurrentM (st : ParseStateM) : List Card :=
  match st.current with
  | some c => st.cards ++ [c]
  | none => st.cards

/-- Processing of one raw line by the `lines.forEach` body of
    generate_alara.mjs lines 165-193: clean and skip blanks, open a new
    card on a structured or degraded card-start line (pushing the previous
    card), ignore lines before the first card, fill the type line first and
    then route each line to flavor or rules by `isFlavorHeuristic`. -/
def stepM (st : ParseStateM) (raw : Line) : ParseStateM :=
  let cl := cleanse raw
  if cl.isEmpty then st
  else
    match idTagMatch cl with
    | some m =>
      ⟨pushCurrentM st, some ⟨m.id, m.name, m.cost.getD [], [], [], []⟩⟩
    | none =>
      if fallbackTag cl then
        ⟨pushCurrentM st, some ⟨[], cl, [], [], [], []⟩⟩
      else
        match st.current with
        | none => st
        | some c =>
          if c.type.isEmpty then ⟨st.cards, some { c with type := cl }⟩
          else if isFlavorHeuristic cl then
            ⟨st.cards, some { c with flavor := c.flavor ++ ' ' :: cl }⟩
          else ⟨st.cards, some { c with text := c.text ++ [cl] }⟩

/-- The `parseDesignBible` function of generate_alara.mjs lines 156-197. -/
def parseDesignBible (content : Line) : List Card :=
  pushCurrentM ((splitLines content).foldl stepM ⟨[], none⟩)

/-! ### The identity derivers (generate_alara.mjs lines 47-125) -/

/-- Color tag for white. -/
def colWhite : Line := "White".data

/-- Color tag for blue. -/
def colBlue : Line := "Blue".data

/-- Color tag for black. -/
def colBlack : Line := "Black".data

/-- Color tag for red. -/
def colRed : Line := "Red".data

/-- Color tag for green. -/
def colGreen : Line := "Green".data

/-- Bracketed white mana symbol. -/
def symW : Line := "\x7bW\x7d".data

/-- Bracketed blue mana symbol. -/
def symU : Line := "\x7bU\x7d".data

/-- Bracketed black mana symbol. -/
def symB : Line := "\x7bB\x7d".data

/-- Bracketed red mana symbol. -/
def symR : Line := "\x7bR\x7d".data

/-- Bracketed green mana symbol. -/
def symG : Line := "\x7bG\x7d".data

/-- The five symbol/tag pairs in the order the code tests them. -/
def colorTable : List (Line × Line) :=
  [(symW, colWhite), (symU, colBlue), (symB, colBlack),
   (symR, colRed), (symG, colGreen)]

/-- The scan string of `getColorIdentity` (generate_alara.mjs line 49):
    `(this.cost + " " + this.text.join(" ")).toUpperCase()`. -/
def fullString (c : Card) : Line :=
  upperLine (c.cost ++ ' ' :: joinSpace c.text)

/-- The `getColorIdentity` method of generate_alara.mjs lines 47-58: a set
    built by inserting the five color tags in the fixed order W, U, B, R, G
    whenever the corresponding bracketed symbol occurs in the scan string,
    returned as a list in insertion order. -/
def getColorIdentity (c : Card) : List Line :=
  (if containsStr symW (fullString c) then [colWhite] else []) ++
  (if containsStr symU (fullString c) then [colBlue] else []) ++
  (if containsStr symB (fullString c) then [colBlack] else []) ++
  (if containsStr symR (fullString c) then [colRed] else []) ++
  (if containsStr symG (fullString c) then [colGreen] else [])

/-- Shard label returned for Esper. -/
def labelEsper : Line := "The Shard of Esper (Alara)".data

/-- Shard label returned for Grixis. -/
def labelGrixis : Line := "The Shard of Grixis (Alara)".data

/-- Shard label returned for Jund. -/
def labelJund : Line := "The Shard of Jund (Alara)".data

/-- Shard label returned for Naya. -/
def labelNaya : Line := "The Shard of Naya (Alara)".data

/-- Shard label returned for Bant. -/
def labelBant : Line := "The Shard of Bant (Alara)".data

/-- Label returned for the spectrum marker. -/
def labelConflux : Line := "The Conflux of Alara (Five-Color Energy)".data

/-- Two-color label for white-blue. -/
def labelEsperOrBant : Line := "The Shard of Esper (Alara) or Bant".data

/-- Two-color label for blue-black. -/
def labelEsperOrGrixis : Line := "The Shard of Esper (Alara) or Grixis".data

/-- Two-color label for black-red. -/
def labelJundOrGrixis : Line := "The Shard of Jund (Alara) or Grixis".data

/-- Two-color label for red-green. -/
def labelJundOrNaya : Line := "The Shard of Jund (Alara) or Naya".data

/-- Two-color label for green-white. -/
def labelBantOrNaya : Line := "The Shard of Bant (Alara) or Naya".data

/-- Label returned for four or more colors. -/
def labelMaelstrom : Line := "The Maelstrom of Alara (Chaotic Mana Storm)".data

/-- The generic default label. -/
def labelPlane : Line := "The Plane of Alara".data

/-- Every label `getShardIdentity` can return. -/
def shardLabels : List Line :=
  [labelEsper, labelGrixis, labelJund, labelNaya, labelBant, labelConflux,
   labelEsperOrBant, labelEsperOrGrixis, labelJundOrGrixis, labelJundOrNaya,
   labelBantOrNaya, labelMaelstrom, labelPlane]

/-- The five name keywords paired with their labels, in the order of
    generate_alara.mjs lines 77-81. -/
def nameKeywordTable : List (Line × Line) :=
  [("esper".data, labelEsper), ("grixis".data, labelGrixis),
   ("jund".data, labelJund), ("naya".data, labelNaya),
   ("bant".data, labelBant)]

/-- The `getShardIdentity` method of generate_alara.mjs lines 69-125: a
    strictly ordered cascade over name keywords, rules-text markers,
    three-color and two-color combinations, type fallbacks and the
    many-color fallback.  The source's local variables `nameLower`,
    `textLower`, `typeLower`, `c`, `colorCount` and `hasW` … `hasG` are
    inlined; the two nested `colorCount === 3` / `=== 2` blocks are
    flattened into conjunctions, which preserves the evaluation order. -/
def getShardIdentity (c : Card) : Line :=
  if containsStr "esper".data (lowerLine c.name) then labelEsper
  else if containsStr "grixis".data (lowerLine c.name) then labelGrixis
  else if containsStr "jund".data (lowerLine c.name) then labelJund
  else if containsStr "naya".data (lowerLine c.name) then labelNaya
  else if containsStr "bant".data (lowerLine c.name) then labelBant
  else if containsStr "fabricate".data (lowerLine (joinSpace c.text)) then labelEsper
  else if containsStr "covenant".data (lowerLine (joinSpace c.text)) then labelBant
  else if containsStr "exhume".data (lowerLine (joinSpace c.text)) then labelGrixis
  else if containsStr "carnage".data (lowerLine (joinSpace c.text)) then labelJund
  else if containsStr "titanic".data (lowerLine (joinSpace c.text)) then labelNaya
  else if containsStr "spectrum".data (lowerLine (joinSpace c.text)) then labelConflux
  else if (getColorIdentity c).length = 3 && (getColorIdentity c).contains colWhite
      && (getColorIdentity c).contains colBlue && (getColorIdentity c).contains colBlack then labelEsper
  else if (getColorIdentity c).length = 3 && (getColorIdentity c).contains colBlue
      && (getColorIdentity c).contains colBlack && (getColorIdentity c).contains colRed then labelGrixis
  else if (getColorIdentity c).length = 3 && (getColorIdentity c).contains colBlack
      && (getColorIdentity c).contains colRed && (getColorIdentity c).contains colGreen then labelJund
  else if (getColorIdentity c).length = 3 && (getColorIdentity c).contains colRed
      && (getColorIdentity c).contains colGreen && (getColorIdentity c).contains colWhite then labelNaya
  else if (getColorIdentity c).length = 3 && (getColorIdentity c).contains colGreen
      && (getColorIdentity c).contains colWhite && (getColorIdentity c).contains colBlue then labelBant
  else if (getColorIdentity c).length = 2 && (getColorIdentity c).contains colWhite
      && (getColorIdentity c).contains colBlue then labelEsperOrBant
  else if (getColorIdentity c).length = 2 && (getColorIdentity c).contains colBlue
      && (getColorIdentity c).contains colBlack then labelEsperOrGrixis
  else if (getColorIdentity c).length = 2 && (getColorIdentity c).contains colBlack
      && (getColorIdentity c).contains colRed then labelJundOrGrixis
  else if (getColorIdentity c).length = 2 && (getColorIdentity c).contains colRed
      && (getColorIdentity c).contains colGreen then labelJundOrNaya
  else if (getColorIdentity c).length = 2 && (getColorIdentity c).contains colGreen
      && (getColorIdentity c).contains colWhite then labelBantOrNaya
  else if containsStr "artifact".data (lowerLine c.type) then labelEsper
  else if containsStr "zombie".data (lowerLine c.type)
      || containsStr "demon".data (lowerLine c.type) then labelGrixis
  else if containsStr "dragon".data (lowerLine c.type)
      || containsStr "viashino".data (lowerLine c.type)
      || containsStr "goblin".data (lowerLine c.type) then labelJund
  else if containsStr "beast".data (lowerLine c.type)
      || containsStr "gargantuan".data (lowerLine c.type) then labelNaya
  else if containsStr "angel".data (lowerLine c.type)
      || containsStr "soldier".data (lowerLine c.type) then labelBant
  else if 4 ≤ (getColorIdentity c).length then labelMaelstrom
  else labelPlane

/-- First name keyword (in source order) occurring in the lowercased card
    name, with its label. -/
def firstNameKeyword (c : Card) : Option Line :=
  (nameKeywordTable.find? (fun p => containsStr p.1 (lowerLine c.name))).map
    (fun p => p.2)

end ArtGen

/-! ### Concrete documents and lines used by the claims -/

/-- The line "Flying". -/
def strFlying : Line := "Flying".data

/-- The line "Haste". -/
def strHaste : Line := "Haste".data

/-- A quoted line. -/
def strQuoted : Line := "\"A quote.\"".data

/-- A prose line with no mechanical content. -/
def strBreeze : Line := "A gentle breeze stirs the dust.".data

/-- The rules line of the C10 disagreement. -/
def strDraw : Line := "Draw a card.".data

/-- The scenario document of the spec (section 8): a cards header followed
    by one structured card with a type line, one rules line and one quoted
    flavor line. -/
def docC3 : Line :=
  ("3. CARD FILE".data) ++ '\n' :: ("[M01] Test Card \x7b1\x7d\x7bW\x7d".data)
    ++ '\n' :: ("Creature — Test".data) ++ '\n' :: strFlying
    ++ '\n' :: strQuoted

/-- A document whose only card-start line is degraded: it begins with a
    bracketed alphanumeric tag but fails the structured pattern (no
    whitespace after the tag). -/
def docC7 : Line := ("3. CARD FILE".data) ++ '\n' :: ("[AB1]x".data)

/-- A document in which a flavor header line occurs after the cards header. -/
def docC9 : Line :=
  ("3. CARD FILE".data) ++ '\n' :: ("1. FLAVOR & WORLD".data)
    ++ '\n' :: ("hello".data)

/-- A document on which the two parser variants split the card body
    differently. -/
def docC10 : Line :=
  ("3. CARD FILE".data) ++ '\n' :: ("[M01] X \x7b1\x7d".data)
    ++ '\n' :: ("Sorcery".data) ++ '\n' :: strDraw

/-- The proposition that `m` is an order-preserving merge of `r` and `f`:
    every position of `m` is routed to exactly one of the two lists and the
    relative order inside each list is the original one.  This is the
    partition-of-occurrences reading of the spec's invariant. -/
inductive Interleave : List Line → List Line → List Line → Prop
  | nil : Interleave [] [] []
  | consRules (a : Line) {r f m : List Line} :
      Interleave r f m → Interleave (a :: r) f (a :: m)
  | consFlavor (a : Line) {r f m : List Line} :
      Interleave r f m → Interleave r (a :: f) (a :: m)

end Alara

/-! ## Theorems -/

namespace Alara

theorem classifyBody_cons (l : Line) (ls : List Line) :
    classifyBody (l :: ls) = classifyStep l (classifyBody ls) := rfl

/-- The backward scan routes every processed line to exactly one of the two
    stacks, preserving order. -/
theorem classifyBody_interleave (ls : List Line) :
    Interleave (classifyBody ls).2.1 (classifyBody ls).2.2 ls := by
  induction ls with
  | nil => exact Interleave.nil
  | cons l rest ih =>
    rw [classifyBody_cons]
    unfold classifyStep
    by_cases hq : startsFlavorQuote l = true
    · simpa [hq] using Interleave.consFlavor l ih
    · by_cases hr : isRuleLine l = true
      · simpa [hq, hr] using Interleave.consRules l ih
      · by_cases hf : (classifyBody rest).1 = true
        · simpa [hq, hr, hf] using Interleave.consFlavor l ih
        · simp only [Bool.not_eq_true] at hf
          simpa [hq, hr, hf] using Interleave.consRules l ih

/-- Every member of the rules side of an interleaving is in the merge. -/
theorem interleave_subset_left {r f m : List Line} (h : Interleave r f m) :
    ∀ x ∈ r, x ∈ m := by
  induction h with
  | nil => intro x hx; exact absurd hx (List.not_mem_nil x)
  | consRules a h ih =>
    intro x hx
    rcases List.mem_cons.mp hx with hx | hx
    · exact hx ▸ List.mem_cons_self a _
    · exact List.mem_cons_of_mem a (ih x hx)
  | consFlavor a h ih =>
    intro x hx
    exact List.mem_cons_of_mem a (ih x hx)

/-- Every member of the flavor side of an interleaving is in the merge. -/
theorem interleave_subset_right {r f m : List Line} (h : Interleave r f m) :
    ∀ x ∈ f, x ∈ m := by
  induction h with
  | nil => intro x hx; exact absurd hx (List.not_mem_nil x)
  | consRules a h ih =>
    intro x hx
    exact List.mem_cons_of_mem a (ih x hx)
  | consFlavor a h ih =>
    intro x hx
    rcases List.mem_cons.mp hx with hx | hx
    · exact hx ▸ List.mem_cons_self a _
    · exact List.mem_cons_of_mem a (ih x hx)

/-- When the merged list has no duplicate lines, the two sides of an
    interleaving share no line. -/
theorem interleave_disjoint {r f m : List Line} (h : Interleave r f m)
    (hm : m.Nodup) : ∀ x ∈ r, x ∉ f := by
  induction h with
  | nil => intro x hx; exact absurd hx (List.not_mem_nil x)
  | consRules a h ih =>
    intro x hx hxf
    rcases List.mem_cons.mp hx with rfl | hxr
    · exact (List.nodup_cons.mp hm).1 (interleave_subset_right h x hxf)
    · exact ih (List.nodup_cons.mp hm).2 x hxr hxf
  | consFlavor a h ih =>
    intro x hx hxf
    rcases List.mem_cons.mp hxf with rfl | hxf2
    · exact (List.nodup_cons.mp hm).1 (interleave_subset_left h x hx)
    · exact ih (List.nodup_cons.mp hm).2 x hx hxf2

/-- C1: for every card record produced by finalization, `text` (the rules
    lines) and `flavor` (the flavor lines) partition the card's non-blank
    body lines after the first remaining line (the type line): each such
    line occurrence lands in exactly one of the two lists, the original
    top-to-bottom order is preserved inside each list, and merging the two
    lists by original position reproduces those body lines in their
    original relative order; in particular, when those body lines have no
    duplicates, the two lists have no line in common. -/
theorem c1_rules_flavor_partition (idl : Line × Line × Line)
    (bodyLines : List Line) :
    Interleave (finalizeCard idl bodyLines).text
      (finalizeCard idl bodyLines).flavor
      ((bodyLines.filter (fun l => !(jsTrim l).isEmpty)).drop 1) ∧
    (((bodyLines.filter (fun l => !(jsTrim l).isEmpty)).drop 1).Nodup →
      ∀ x ∈ (finalizeCard idl bodyLines).text,
        x ∉ (finalizeCard idl bodyLines).flavor) := by
  have hint : Interleave (finalizeCard idl bodyLines).text
      (finalizeCard idl bodyLines).flavor
      ((bodyLines.filter (fun l => !(jsTrim l).isEmpty)).drop 1) := by
    unfold finalizeCard
    cases h : bodyLines.filter (fun l => !(jsTrim l).isEmpty) with
    | nil => exact Interleave.nil
    | cons ty remaining => exact classifyBody_interleave remaining
  exact ⟨hint, fun hnd => interleave_disjoint hint hnd⟩

/-- Witness for the duplicate-freeness hypothesis of
    `c1_rules_flavor_partition` at a concrete card body. -/
theorem c1_witness :
    ∀ x ∈ (finalizeCard ("M01".data, "X".data, [])
        ["Creature".data, strFlying, strQuoted]).text,
      x ∉ (finalizeCard ("M01".data, "X".data, [])
        ["Creature".data, strFlying, strQuoted]).flavor :=
  (c1_rules_flavor_partition ("M01".data, "X".data, [])
    ["Creature".data, strFlying, strQuoted]).2 (by decide)

/-- Appending already-scanned lines below keeps a latched rules flag
    latched: every further (higher) line goes to the rules stack unless it
    is quoted, and the flag never reverts. -/
theorem classifyBody_append_flag_false (pre suf : List Line)
    (h : (classifyBody suf).1 = false) :
    (classifyBody (pre ++ suf)).1 = false ∧
    (classifyBody (pre ++ suf)).2.1
      = pre.filter (fun l => !startsFlavorQuote l) ++ (classifyBody suf).2.1 ∧
    (classifyBody (pre ++ suf)).2.2
      = pre.filter (fun l => startsFlavorQuote l) ++ (classifyBody suf).2.2 := by
  induction pre with
  | nil => simp [h]
  | cons l pre ih =>
    obtain ⟨h1, h2, h3⟩ := ih
    have hc : classifyBody ((l :: pre) ++ suf)
        = classifyStep l (classifyBody (pre ++ suf)) := rfl
    rw [hc]
    unfold classifyStep
    by_cases hq : startsFlavorQuote l = true
    · simp [hq, h1, h2, h3]
    · by_cases hr : isRuleLine l = true <;>
        simp [hq, hr, h1, h2, h3, List.filter_cons]

/-- C2: in the backward bottom-to-top scan, (i) a line beginning with an
    opening quotation character is placed on the flavor stack and leaves
    the flavor flag unchanged, whatever its content; (ii) a non-quoted line
    that the classifier marks as a rules line latches the flag to false;
    (iii) once the flag is false after scanning the lower part of the body,
    it stays false for the whole remaining scan and every non-quoted line
    above goes to the rules list (the quoted ones still go to flavor), so
    classification never reverts to flavor. -/
theorem c2_quote_flavor_and_monotone_flag :
    (∀ (l : Line) (acc : Bool × List Line × List Line),
        startsFlavorQuote l = true →
        classifyStep l acc = (acc.1, acc.2.1, l :: acc.2.2)) ∧
    (∀ (l : Line) (suf : List Line),
        startsFlavorQuote l = false → isRuleLine l = true →
        (classifyBody (l :: suf)).1 = false) ∧
    (∀ (pre suf : List Line),
        (classifyBody suf).1 = false →
        (classifyBody (pre ++ suf)).1 = false ∧
        (classifyBody (pre ++ suf)).2.1
          = pre.filter (fun l => !startsFlavorQuote l)
              ++ (classifyBody suf).2.1 ∧
        (classifyBody (pre ++ suf)).2.2
          = pre.filter (fun l => startsFlavorQuote l)
              ++ (classifyBody suf).2.2) := by
  refine ⟨?_, ?_, classifyBody_append_flag_false⟩
  · intro l acc hq
    unfold classifyStep
    simp [hq]
  · intro l suf hq hr
    rw [classifyBody_cons]
    unfold classifyStep
    simp [hq, hr]

/-- Witness for the hypotheses of `c2_quote_flavor_and_monotone_flag`,
    instantiated at concrete lines. -/
theorem c2_witness :
    classifyStep strQuoted (true, [], []) = (true, [], [strQuoted]) ∧
    (classifyBody [strFlying, strBreeze]).1 = false ∧
    ((classifyBody ([strBreeze] ++ [strFlying])).1 = false ∧
      (classifyBody ([strBreeze] ++ [strFlying])).2.1
        = [strBreeze].filter (fun l => !startsFlavorQuote l)
            ++ (classifyBody [strFlying]).2.1 ∧
      (classifyBody ([strBreeze] ++ [strFlying])).2.2
        = [strBreeze].filter (fun l => startsFlavorQuote l)
            ++ (classifyBody [strFlying]).2.2) :=
  ⟨c2_quote_flavor_and_monotone_flag.1 strQuoted (true, [], []) (by decide),
   c2_quote_flavor_and_monotone_flag.2.1 strFlying [strBreeze] (by decide)
     (by decide),
   c2_quote_flavor_and_monotone_flag.2.2 [strBreeze] [strFlying] (by decide)⟩

/-- C3: the document with header "3. CARD FILE" followed by the four lines
    "[M01] Test Card {1}{W}", "Creature — Test", "Flying" and a straight
    double-quoted "A quote." parses to exactly one card record with
    id "M01", name "Test Card", cost "{1}{W}", type line "Creature — Test",
    rules lines ["Flying"] and flavor lines ["\"A quote.\""]. -/
theorem c3_scenario_document :
    (parseDesignBible docC3).cards =
      [⟨"M01".data, "Test Card".data, "\x7b1\x7d\x7bW\x7d".data,
        "Creature — Test".data, [strFlying], [strQuoted]⟩] := by
  decide

/-- C4: the classifier accepts "Flying" (vocabulary term) and
    "{T}: Draw a card." (bracket symbol), and rejects both
    "A gentle breeze stirs the dust." (no symbol, no vocabulary term, no
    pattern match) and the empty line. -/
theorem c4_classifier_samples :
    isRuleLine strFlying = true ∧
    isRuleLine ("\x7bT\x7d: Draw a card.".data) = true ∧
    isRuleLine strBreeze = false ∧
    isRuleLine ([] : Line) = false := by
  decide

/-- Both branches of a conditional in a list keep the conditional in the
    list. -/
theorem mem_of_ite {α : Type} (c : Prop) [Decidable c] (s : List α) (a b : α)
    (ha : a ∈ s) (hb : b ∈ s) : (if c then a else b) ∈ s := by
  split
  · exact ha
  · exact hb

/-- Totality of the shard cascade: every branch of the cascade returns one
    of the thirteen fixed labels. -/
theorem shard_mem_labels (c : ArtGen.Card) :
    ArtGen.getShardIdentity c ∈ ArtGen.shardLabels := by
  unfold ArtGen.getShardIdentity
  repeat' apply mem_of_ite
  all_goals decide

/-- C8: the embedded parser is a total function on document contents and
    reaches no error branch — running the generator on a present document
    always yields the parse result, and the only error of the run is the
    missing input document, raised before parsing; the identity deriver is
    likewise total, always producing one of the fixed labels. -/
theorem c8_parse_total_no_error :
    (∀ content : Line,
        runMain (some content) = Except.ok (parseDesignBible content)) ∧
    runMain none = Except.error "Error: alara_design_bible.txt not found.".data ∧
    (∀ c : ArtGen.Card, ArtGen.getShardIdentity c ∈ ArtGen.shardLabels) := by
  refine ⟨fun content => rfl, rfl, shard_mem_labels⟩

/-- C5: the shard cascade is total — every card is assigned exactly one
    label of the fixed label set — and the name check has top priority: a
    card whose name contains a thematic keyword (case-insensitively, first
    keyword in source order winning) receives that keyword's label no
    matter what the lower-priority rules (text markers, color counts, type
    fallbacks, many-color fallback) would assign; in particular a card
    named "Esper Stormwatcher" always maps to the Esper label. -/
theorem c5_shard_cascade_total_and_name_first :
    (∀ c : ArtGen.Card, ArtGen.getShardIdentity c ∈ ArtGen.shardLabels) ∧
    (∀ (id cost ty : Line) (tx : List Line) (fl : Line),
        ArtGen.getShardIdentity
          ⟨id, "Esper Stormwatcher".data, cost, ty, tx, fl⟩
          = ArtGen.labelEsper) ∧
    (∀ c : ArtGen.Card,
        containsStr "esper".data (lowerLine c.name) = true →
        ArtGen.getShardIdentity c = ArtGen.labelEsper) ∧
    (∀ c : ArtGen.Card,
        containsStr "esper".data (lowerLine c.name) = false →
        containsStr "grixis".data (lowerLine c.name) = true →
        ArtGen.getShardIdentity c = ArtGen.labelGrixis) ∧
    (∀ c : ArtGen.Card,
        containsStr "esper".data (lowerLine c.name) = false →
        containsStr "grixis".data (lowerLine c.name) = false →
        containsStr "jund".data (lowerLine c.name) = true →
        ArtGen.getShardIdentity c = ArtGen.labelJund) ∧
    (∀ c : ArtGen.Card,
        containsStr "esper".data (lowerLine c.name) = false →
        containsStr "grixis".data (lowerLine c.name) = false →
        containsStr "jund".data (lowerLine c.name) = false →
        containsStr "naya".data (lowerLine c.name) = true →
        ArtGen.getShardIdentity c = ArtGen.labelNaya) ∧
    (∀ c : ArtGen.Card,
        containsStr "esper".data (lowerLine c.name) = false →
        containsStr "grixis".data (lowerLine c.name) = false →
        containsStr "jund".data (lowerLine c.name) = false →
        containsStr "naya".data (lowerLine c.name) = false →
        containsStr "bant".data (lowerLine c.name) = true →
        ArtGen.getShardIdentity c = ArtGen.labelBant) := by
  refine ⟨shard_mem_labels, ?_, ?_, ?_, ?_, ?_, ?_⟩
  · intro id cost ty tx fl
    have h1 : containsStr "esper".data
        (lowerLine ("Esper Stormwatcher".data)) = true := by decide
    exact if_pos h1
  · intro c h1
    unfold ArtGen.getShardIdentity
    rw [if_pos h1]
  · intro c h1 h2
    unfold ArtGen.getShardIdentity
    rw [if_neg (by simp [h1]), if_pos h2]
  · intro c h1 h2 h3
    unfold ArtGen.getShardIdentity
    rw [if_neg (by simp [h1]), if_neg (by simp [h2]), if_pos h3]
  · intro c h1 h2 h3 h4
    unfold ArtGen.getShardIdentity
    rw [if_neg (by simp [h1]), if_neg (by simp [h2]), if_neg (by simp [h3]),
      if_pos h4]
  · intro c h1 h2 h3 h4 h5
    unfold ArtGen.getShardIdentity
    rw [if_neg (by simp [h1]), if_neg (by simp [h2]), if_neg (by simp [h3]),
      if_neg (by simp [h4]), if_pos h5]

/-- Witness for the hypotheses of `c5_shard_cascade_total_and_name_first`,
    instantiated at concrete cards. -/
theorem c5_witness :
    ArtGen.getShardIdentity
        ⟨"M02".data, "Grixis Bomb".data, [], [], [], []⟩
      = ArtGen.labelGrixis ∧
    ArtGen.getShardIdentity
        ⟨"M03".data, "Bant Sentry".data, [], [], [], []⟩
      = ArtGen.labelBant :=
  ⟨c5_shard_cascade_total_and_name_first.2.2.2.1
      ⟨"M02".data, "Grixis Bomb".data, [], [], [], []⟩
      (by decide) (by decide),
   c5_shard_cascade_total_and_name_first.2.2.2.2.2.2
      ⟨"M03".data, "Bant Sentry".data, [], [], [], []⟩
      (by decide) (by decide) (by decide) (by decide) (by decide)⟩

/-- The color identity is the filter of the fixed symbol/tag table by
    occurrence of the symbol in the scan string. -/
theorem getColorIdentity_eq_filter (c : ArtGen.Card) :
    ArtGen.getColorIdentity c
      = (ArtGen.colorTable.filter
          (fun p => containsStr p.1 (ArtGen.fullString c))).map Prod.snd := by
  unfold ArtGen.getColorIdentity ArtGen.colorTable
  by_cases h1 : containsStr ArtGen.symW (ArtGen.fullString c) = true <;>
  by_cases h2 : containsStr ArtGen.symU (ArtGen.fullString c) = true <;>
  by_cases h3 : containsStr ArtGen.symB (ArtGen.fullString c) = true <;>
  by_cases h4 : containsStr ArtGen.symR (ArtGen.fullString c) = true <;>
  by_cases h5 : containsStr ArtGen.symG (ArtGen.fullString c) = true <;>
    simp [h1, h2, h3, h4, h5]

/-- C6: the color identity of a card with cost "{2}{W}{U}" and no rules
    text is exactly [White, Blue]; a card with empty cost and no color
    symbol anywhere in its scan string has an empty color identity; in
    general the color identity is exactly the duplicate-free list of the
    five color tags, in the fixed insertion order, whose bracketed symbols
    occur in the case-normalized concatenation of cost and rules lines. -/
theorem c6_color_identity :
    (∀ (id nm ty fl : Line),
        ArtGen.getColorIdentity
          ⟨id, nm, "\x7b2\x7d\x7bW\x7d\x7bU\x7d".data, ty, [], fl⟩
          = [ArtGen.colWhite, ArtGen.colBlue]) ∧
    (∀ c : ArtGen.Card, c.cost = [] →
        (∀ p ∈ ArtGen.colorTable,
          containsStr p.1 (ArtGen.fullString c) = false) →
        ArtGen.getColorIdentity c = []) ∧
    (∀ c : ArtGen.Card,
        ArtGen.getColorIdentity c
          = (ArtGen.colorTable.filter
              (fun p => containsStr p.1 (ArtGen.fullString c))).map Prod.snd) ∧
    (∀ c : ArtGen.Card, (ArtGen.getColorIdentity c).Nodup) := by
  refine ⟨?_, ?_, getColorIdentity_eq_filter, ?_⟩
  · intro id nm ty fl
    have e : ArtGen.fullString
        ⟨id, nm, "\x7b2\x7d\x7bW\x7d\x7bU\x7d".data, ty, [], fl⟩
        = ArtGen.fullString
            ⟨[], [], "\x7b2\x7d\x7bW\x7d\x7bU\x7d".data, [], [], []⟩ := rfl
    rw [getColorIdentity_eq_filter, e]
    decide
  · intro c hcost hnone
    rw [getColorIdentity_eq_filter]
    have hfil : ArtGen.colorTable.filter
        (fun p => containsStr p.1 (ArtGen.fullString c)) = [] := by
      rw [List.filter_eq_nil_iff]
      intro p hp
      simp [hnone p hp]
    rw [hfil]
    rfl
  · intro c
    rw [getColorIdentity_eq_filter]
    exact List.Nodup.sublist
      ((ArtGen.colorTable.filter_sublist).map Prod.snd) (by decide)

/-- Witness for the hypotheses of `c6_color_identity`, instantiated at a
    colorless concrete card. -/
theorem c6_witness :
    ArtGen.getColorIdentity ⟨"C01".data, [], [], [], [], []⟩ = [] :=
  c6_color_identity.2.1 ⟨"C01".data, [], [], [], [], []⟩ rfl (by decide)

/-- C7 counterexample: the degraded card-start line "[AB1]x" (a bracketed
    alphanumeric tag failing the full structured pattern) produces in the
    gallery generator a record whose id is the string "UNKNOWN", not the
    empty sentinel the claim states. -/
theorem c7_counterexample :
    (parseDesignBible docC7).cards.map Card.id = ["UNKNOWN".data] ∧
    ("UNKNOWN".data : Line) ≠ [] := by
  decide

/-- C7 as amended: a cards-section line that begins with a bracketed
    alphanumeric tag but fails the full structured pattern (and contains no
    section-header substring) opens a new card without any error in both
    parser variants; the record captures the raw normalized line as its
    name and an empty cost, and its id is the variant's sentinel — the
    string "UNKNOWN" in the gallery generator, the empty string in
    generate_alara.mjs. -/
theorem c7_amended_degraded_cardstart (st : ParseState)
    (stM : ArtGen.ParseStateM) (raw : Line) :
    cleanse raw ≠ [] →
    containsStr hdrFlavor (cleanse raw) = false →
    containsStr hdrMechanics (cleanse raw) = false →
    containsStr hdrCards (cleanse raw) = false →
    idTagMatch (cleanse raw) = none →
    fallbackTag (cleanse raw) = true →
    st.parsingSection = Mode.CARDS →
    (step001 st raw).currentIdLine = some ("UNKNOWN".data, cleanse raw, [])
    ∧ (ArtGen.stepM stM raw).current
        = some ⟨[], cleanse raw, [], [], [], []⟩ := by
  intro hne hf hm hc hid hfb hsec
  have h0 : (cleanse raw).isEmpty = false := by
    cases h : cleanse raw with
    | nil => exact absurd h hne
    | cons a l => rfl
  unfold step001 ArtGen.stepM
  simp [h0, hf, hm, hc, hid, hfb, hsec]

/-- Witness for the hypotheses of `c7_amended_degraded_cardstart` at the
    concrete degraded line "[AB1]x". -/
theorem c7_witness :
    (step001 ⟨[], [], [], none, [], Mode.CARDS⟩
        ("[AB1]x".data)).currentIdLine
      = some ("UNKNOWN".data, cleanse ("[AB1]x".data), []) ∧
    (ArtGen.stepM ⟨[], none⟩ ("[AB1]x".data)).current
      = some ⟨[], cleanse ("[AB1]x".data), [], [], [], []⟩ :=
  c7_amended_degraded_cardstart ⟨[], [], [], none, [], Mode.CARDS⟩
    ⟨[], none⟩ ("[AB1]x".data) (by decide) (by decide) (by decide)
    (by decide) (by decide) (by decide) rfl

/-- C9 counterexample: in the document whose lines are "3. CARD FILE",
    "1. FLAVOR & WORLD", "hello", the first line puts the parser in the
    cards section, yet the third line is appended to the flavor bucket —
    the second line switched the section mode backward. -/
theorem c9_counterexample :
    (((splitLines docC9).take 1).foldl step001 initState).parsingSection
        = Mode.CARDS ∧
    (parseDesignBible docC9).infoFlavor = ["hello".data] := by
  decide

/-- A single parser step keeps the cards mode and the auxiliary buckets as
    long as the line contains neither of the two earlier header
    substrings. -/
theorem step001_stays_cards (st : ParseState) (l : Line)
    (hsec : st.parsingSection = Mode.CARDS)
    (hf : containsStr hdrFlavor (cleanse l) = false)
    (hm : containsStr hdrMechanics (cleanse l) = false) :
    (step001 st l).parsingSection = Mode.CARDS ∧
    (step001 st l).infoFlavor = st.infoFlavor ∧
    (step001 st l).infoMechanics = st.infoMechanics := by
  unfold step001
  by_cases h0 : (cleanse l).isEmpty
  · simp [h0, hsec]
  · by_cases hc : containsStr hdrCards (cleanse l) = true
    · simp [h0, hf, hm, hc]
    · cases hid : idTagMatch (cleanse l) with
      | some m => simp [h0, hf, hm, hc, hsec, hid]
      | none =>
        by_cases hfb : fallbackTag (cleanse l) = true
        · simp [h0, hf, hm, hc, hsec, hid, hfb]
        · cases hcur : st.currentIdLine <;>
            simp [h0, hf, hm, hc, hsec, hid, hfb, hcur]

/-- C9 as amended: the section mode is switched by header substrings
    wherever they occur, so it can also move backward out of the cards
    section; provided no line processed after entering the cards section
    contains the flavor-header or mechanics-header substring, the parser
    stays in the cards section and the intro/flavor and mechanics buckets
    receive no further lines. -/
theorem c9_amended_cards_stable (st : ParseState) (lines : List Line) :
    st.parsingSection = Mode.CARDS →
    (∀ l ∈ lines, containsStr hdrFlavor (cleanse l) = false ∧
        containsStr hdrMechanics (cleanse l) = false) →
    (lines.foldl step001 st).parsingSection = Mode.CARDS ∧
    (lines.foldl step001 st).infoFlavor = st.infoFlavor ∧
    (lines.foldl step001 st).infoMechanics = st.infoMechanics := by
  induction lines generalizing st with
  | nil => intro h _; exact ⟨h, rfl, rfl⟩
  | cons l rest ih =>
    intro hsec hall
    rw [List.foldl_cons]
    obtain ⟨hf, hm⟩ := hall l (List.mem_cons_self l rest)
    have hstep := step001_stays_cards st l hsec hf hm
    have hrest := ih (step001 st l) hstep.1
      (fun x hx => hall x (List.mem_cons_of_mem _ hx))
    exact ⟨hrest.1, hrest.2.1.trans hstep.2.1, hrest.2.2.trans hstep.2.2⟩

/-- Witness for the hypotheses of `c9_amended_cards_stable` at a concrete
    state and line list. -/
theorem c9_witness :
    ((["hello".data].foldl step001
        ⟨[], [], [], none, [], Mode.CARDS⟩).parsingSection = Mode.CARDS) ∧
    (["hello".data].foldl step001
        ⟨[], [], [], none, [], Mode.CARDS⟩).infoFlavor = [] ∧
    (["hello".data].foldl step001
        ⟨[], [], [], none, [], Mode.CARDS⟩).infoMechanics = [] :=
  c9_amended_cards_stable ⟨[], [], [], none, [], Mode.CARDS⟩
    ["hello".data] rfl (by decide)

/-- C10 counterexample: on the document whose card body is "Sorcery" /
    "Draw a card.", the gallery generator puts "Draw a card." in the rules
    lines with empty flavor, while generate_alara.mjs puts it in the flavor
    string with empty rules — the two parser variants do not produce the
    same rules/flavor split. -/
theorem c10_counterexample :
    (parseDesignBible docC10).cards.map Card.text
        ≠ (ArtGen.parseDesignBible docC10).map ArtGen.Card.text ∧
    (parseDesignBible docC10).cards.map Card.text = [[strDraw]] ∧
    (parseDesignBible docC10).cards.map Card.flavor = [[]] ∧
    (ArtGen.parseDesignBible docC10).map ArtGen.Card.text = [[]] ∧
    (ArtGen.parseDesignBible docC10).map ArtGen.Card.flavor
        = [' ' :: strDraw] := by
  decide

/-- The backward scan sends a body whose every line is an unquoted rules
    line entirely to the rules stack. -/
theorem classifyBody_all_rules (ls : List Line)
    (h : ∀ l ∈ ls, startsFlavorQuote l = false ∧ isRuleLine l = true) :
    (classifyBody ls).2.1 = ls ∧ (classifyBody ls).2.2 = [] := by
  induction ls with
  | nil => exact ⟨rfl, rfl⟩
  | cons l rest ih =>
    obtain ⟨hq, hr⟩ := h l (List.mem_cons_self l rest)
    have ihh := ih (fun x hx => h x (List.mem_cons_of_mem _ hx))
    rw [classifyBody_cons]
    unfold classifyStep
    simp [hq, hr, ihh.1, ihh.2]

/-- The forward dispatch sends a body with no flavor-heuristic line
    entirely to the rules list. -/
theorem mjsBodyFold_all_rules (ls : List Line) (acc : List Line × Line)
    (h : ∀ l ∈ ls, ArtGen.isFlavorHeuristic l = false) :
    ls.foldl ArtGen.mjsBodyStep acc = (acc.1 ++ ls, acc.2) := by
  induction ls generalizing acc with
  | nil => simp
  | cons l rest ih =>
    rw [List.foldl_cons]
    have hl := h l (List.mem_cons_self l rest)
    have e : ArtGen.mjsBodyStep acc l = (acc.1 ++ [l], acc.2) := by
      unfold ArtGen.mjsBodyStep
      rw [if_neg (by simp [hl])]
    rw [e, ih _ (fun x hx => h x (List.mem_cons_of_mem _ hx))]
    simp

/-- C10 as amended: the two parser variants do not classify card bodies
    identically in general (see the counterexample); they do agree on card
    bodies every line of which is rules-like for both heuristics — not
    starting with a quotation character, accepted by the classifier, and
    failing the forward flavor test — where both produce rules = all body
    lines and empty flavor. -/
theorem c10_amended_agreement (ls : List Line) :
    (∀ l ∈ ls, startsFlavorQuote l = false ∧ isRuleLine l = true ∧
        ArtGen.isFlavorHeuristic l = false) →
    (classifyBody ls).2.1 = ls ∧ (classifyBody ls).2.2 = [] ∧
    ArtGen.bodySplit ls = (ls, []) := by
  intro h
  have h1 := classifyBody_all_rules ls
    (fun l hl => ⟨(h l hl).1, (h l hl).2.1⟩)
  have h2 := mjsBodyFold_all_rules ls ([], [])
    (fun l hl => (h l hl).2.2)
  refine ⟨h1.1, h1.2, ?_⟩
  unfold ArtGen.bodySplit
  rw [h2]
  rfl

/-- Witness for the hypothesis of `c10_amended_agreement` at a concrete
    one-line body. -/
theorem c10_witness :
    (classifyBody [strFlying]).2.1 = [strFlying] ∧
    (classifyBody [strFlying]).2.2 = [] ∧
    ArtGen.bodySplit [strFlying] = ([strFlying], []) :=
  c10_amended_agreement [strFlying] (by decide)

end Alara

